import Mathlib

/-
Verification of the inventory HTTP service in `src/main.js` (and its duplicate
variant in `src/unnamed/part_001`, which has identical handler logic).

The service keeps a global array `INVENTORY` of item records and a cache
directory of photo files.  Each handler is embedded here as a pure function
from the current inventory (and, where relevant, the set of file basenames
present in the cache directory) to a result record carrying the HTTP status,
the mutated inventory/files, and the JSON response fields the claims talk
about.  Filesystem success or failure of the best-effort `fs.unlinkSync`
calls is passed in as an explicit boolean.
-/

namespace Inv

/-- One inventory record, as created by the handler of POST /register in
`src/main.js` (fields `id`, `inventory_name`, `description`, `photo_path`;
`photo_path` is `null` or the basename of the stored photo file). -/
structure Item where
  id : String
  inventory_name : String
  description : String
  photo_path : Option String
  deriving Repr, DecidableEq

/-- JavaScript truthiness of an optional string field of a request body:
an absent field (`undefined`) and the empty string are falsy, every other
string is truthy. -/
def truthy : Option String → Bool
  | none => false
  | some s => s ≠ ""

/-- The lookup `INVENTORY.find(i => i.id === id)` used by every handler
with an `:id` route parameter: first item whose id matches, or none. -/
def findItem (inv : List Item) (id : String) : Option Item :=
  inv.find? (fun i => i.id == id)

/-- The expression `item.photo_path ? '/inventory/' + item.id + '/photo' : null`
used to augment responses with a photo link. -/
def photoLink (item : Item) : Option String :=
  if truthy item.photo_path then some ("/inventory/" ++ item.id ++ "/photo") else none

/-- Result of POST /register: status, inventory after the request, and the
`id` and `photo_link` fields of a 201 response body (none on 400). -/
structure RegisterResult where
  status : Nat
  inventory : List Item
  resp_id : Option String
  resp_photo_link : Option String
  deriving Repr, DecidableEq

/-- Handler of POST /register (`src/main.js` lines 79-100): a falsy
`inventory_name` is rejected with 400; otherwise a new item with the id
generated by `uuidv4()` (passed here as `freshId`) is pushed onto
`INVENTORY` and the handler answers 201.  `photoFile` is the basename of
the file multer stored, or none when no `photo` part was uploaded. -/
def register (inv : List Item) (freshId : String)
    (inventory_name description photoFile : Option String) : RegisterResult :=
  if truthy inventory_name then
    let newItem : Item :=
      { id := freshId,
        inventory_name := inventory_name.getD "",
        description := description.getD "",
        photo_path := photoFile }
    { status := 201,
      inventory := inv ++ [newItem],
      resp_id := some newItem.id,
      resp_photo_link := photoLink newItem }
  else
    { status := 400, inventory := inv, resp_id := none, resp_photo_link := none }

/-- Result of GET /inventory/:id. -/
structure GetResult where
  status : Nat
  resp_item : Option Item
  resp_photo_link : Option String
  deriving Repr, DecidableEq

/-- Handler of GET /inventory/:id (`src/main.js` lines 112-125): 404 when the
id is unknown, otherwise 200 with the item augmented with `photo_link`. -/
def getItem (inv : List Item) (id : String) : GetResult :=
  match findItem inv id with
  | none => { status := 404, resp_item := none, resp_photo_link := none }
  | some item =>
      { status := 200, resp_item := some item, resp_photo_link := photoLink item }

/-- Handler of GET /inventory (`src/main.js` lines 103-109): every item of
`INVENTORY`, in array order, paired with its `photo_link` augmentation. -/
def listInventory (inv : List Item) : List (Item × Option String) :=
  inv.map (fun item => (item, photoLink item))

/-- One field assignment of the PUT /inventory/:id handler: the stored field
is overwritten only when the request body field is present and truthy. -/
def applyPatch (item : Item) (name_field desc_field : Option String) : Item :=
  let item1 :=
    if truthy name_field then { item with inventory_name := name_field.getD "" } else item
  if truthy desc_field then { item1 with description := desc_field.getD "" } else item1

/-- In-place mutation of the object returned by `INVENTORY.find`: only the
first item whose id matches is replaced by `f` of itself. -/
def updateFirst (inv : List Item) (id : String) (f : Item → Item) : List Item :=
  match inv with
  | [] => []
  | i :: rest => if i.id == id then f i :: rest else i :: updateFirst rest id f

/-- Result of PUT /inventory/:id. -/
structure UpdateResult where
  status : Nat
  inventory : List Item
  resp_item : Option Item
  deriving Repr, DecidableEq

/-- Handler of PUT /inventory/:id (`src/main.js` lines 129-145): 404 when the
id is unknown; otherwise the found item is patched field by field (truthy
fields only) and returned with 200. -/
def updateItem (inv : List Item) (id : String)
    (name_field desc_field : Option String) : UpdateResult :=
  match findItem inv id with
  | none => { status := 404, inventory := inv, resp_item := none }
  | some it =>
      { status := 200,
        inventory := updateFirst inv id (fun i => applyPatch i name_field desc_field),
        resp_item := some (applyPatch it name_field desc_field) }

/-- Result of DELETE /inventory/:id: status, inventory after the request and
cache-directory contents after the best-effort photo unlink. -/
structure DeleteResult where
  status : Nat
  inventory : List Item
  files : List String
  deriving Repr, DecidableEq

/-- Handler of DELETE /inventory/:id (`src/main.js` lines 148-170): the item
is removed from `INVENTORY` by `filter`; an unchanged length means 404.
Afterwards the photo file, if any, is unlinked inside a try/catch whose
outcome (`unlinkOk`) does not influence the response or the inventory. -/
def deleteItem (inv : List Item) (id : String) (files : List String)
    (unlinkOk : Bool) : DeleteResult :=
  let itemToDelete := findItem inv id
  let remaining := inv.filter (fun i => i.id != id)
  if remaining.length = inv.length then
    { status := 404, inventory := remaining, files := files }
  else
    let files1 :=
      match itemToDelete with
      | some it =>
          if truthy it.photo_path && unlinkOk then
            files.filter (fun f => f != it.photo_path.getD "")
          else files
      | none => files
    { status := 200, inventory := remaining, files := files1 }

/-- Result of GET /inventory/:id/photo (only the status matters to the
claims; 200 stands for the successful `sendFile`). -/
structure PhotoResult where
  status : Nat
  deriving Repr, DecidableEq

/-- Handler of GET /inventory/:id/photo (`src/main.js` lines 173-196):
404 when the id is unknown or the item's `photo_path` is falsy, 404 when
the referenced basename is not present in the cache directory (`existsSync`),
otherwise the file is served with 200. -/
def getPhoto (inv : List Item) (id : String) (files : List String) : PhotoResult :=
  match findItem inv id with
  | none => { status := 404 }
  | some item =>
      if truthy item.photo_path then
        if files.contains (item.photo_path.getD "") then { status := 200 }
        else { status := 404 }
      else { status := 404 }

/-- Result of PUT /inventory/:id/photo. -/
structure PutPhotoResult where
  status : Nat
  inventory : List Item
  files : List String
  resp_photo_link : Option String
  deriving Repr, DecidableEq

/-- Handler of PUT /inventory/:id/photo (`src/main.js` lines 199-218): multer
stores the uploaded file (if any) before the handler runs; an unknown id is
404; otherwise the old photo file is best-effort unlinked, `photo_path` is
set to the new basename or to null when no file was uploaded, and the
response is 200 with a `photo_link` built unconditionally. -/
def putPhoto (inv : List Item) (id : String) (newFile : Option String)
    (files : List String) (unlinkOk : Bool) : PutPhotoResult :=
  let files0 := files ++ newFile.toList
  match findItem inv id with
  | none => { status := 404, inventory := inv, files := files0, resp_photo_link := none }
  | some item =>
      let files1 :=
        if truthy item.photo_path && unlinkOk then
          files0.filter (fun f => f != item.photo_path.getD "")
        else files0
      { status := 200,
        inventory := updateFirst inv id (fun i => { i with photo_path := newFile }),
        files := files1,
        resp_photo_link := some ("/inventory/" ++ item.id ++ "/photo") }

/-- Result of POST /search: status and the four possible response body
fields; an absent body field is none. -/
structure SearchResult where
  status : Nat
  resp_id : Option String
  resp_name : Option String
  resp_desc : Option String
  resp_photo_link : Option String
  deriving Repr, DecidableEq

/-- Handler of POST /search (`src/main.js` lines 222-244): falsy `id` is 400,
unknown id is 404; otherwise a projection of the item is returned and
`photo_link` is added exactly when `has_photo === 'on'` and `photo_path`
is truthy. -/
def search (inv : List Item) (id_field has_photo : Option String) : SearchResult :=
  if truthy id_field then
    match findItem inv (id_field.getD "") with
    | none =>
        { status := 404, resp_id := none, resp_name := none,
          resp_desc := none, resp_photo_link := none }
    | some item =>
        { status := 200,
          resp_id := some item.id,
          resp_name := some item.inventory_name,
          resp_desc := some item.description,
          resp_photo_link :=
            if has_photo == some "on" && truthy item.photo_path then
              some ("/inventory/" ++ item.id ++ "/photo")
            else none }
  else
    { status := 400, resp_id := none, resp_name := none,
      resp_desc := none, resp_photo_link := none }

/-- The method whitelist of the 405 middleware (`src/main.js` line 57). -/
def allowedMethods : List String := ["GET", "POST", "PUT", "DELETE"]

/-- Outcome of the 405 middleware: `status = none` means the request was
passed on to the routes (`next()`). -/
structure MiddlewareResult where
  status : Option Nat
  allowHeader : Option String
  deriving Repr, DecidableEq

/-- The 405 middleware (`src/main.js` lines 56-64): it runs for every request
before routing and never inspects the path; a method outside the whitelist is
answered 405 with header `Allow: allowedMethods.join(', ')`. -/
def methodMiddleware (method : String) (_path : String) : MiddlewareResult :=
  if allowedMethods.contains method then { status := none, allowHeader := none }
  else { status := some 405, allowHeader := some (String.intercalate ", " allowedMethods) }

/-! Basic lemmas about the embedded handlers. -/

theorem truthy_iff (o : Option String) : truthy o = true ↔ ∃ s, o = some s ∧ s ≠ "" := by
  cases o with
  | none => simp [truthy]
  | some s => simp [truthy]

theorem truthy_getD_ne (o : Option String) (h : truthy o = true) : o.getD "" ≠ "" := by
  rcases (truthy_iff o).mp h with ⟨s, rfl, hs⟩
  simpa using hs

theorem applyPatch_id (i : Item) (nm ds : Option String) : (applyPatch i nm ds).id = i.id := by
  unfold applyPatch
  cases hn : truthy nm <;> cases hd : truthy ds <;> simp [hn, hd]

theorem applyPatch_inventory_name (i : Item) (nm ds : Option String) :
    (applyPatch i nm ds).inventory_name =
      if truthy nm then nm.getD "" else i.inventory_name := by
  unfold applyPatch
  cases hn : truthy nm <;> cases hd : truthy ds <;> simp [hn, hd]

theorem applyPatch_description (i : Item) (nm ds : Option String) :
    (applyPatch i nm ds).description =
      if truthy ds then ds.getD "" else i.description := by
  unfold applyPatch
  cases hn : truthy nm <;> cases hd : truthy ds <;> simp [hn, hd]

theorem updateFirst_map {α : Type} (inv : List Item) (id : String) (f : Item → Item)
    (g : Item → α) (hf : ∀ i, g (f i) = g i) :
    (updateFirst inv id f).map g = inv.map g := by
  induction inv with
  | nil => rfl
  | cons i rest ih =>
    unfold updateFirst
    cases h : (i.id == id) with
    | true => simp [h, hf]
    | false => simp [h, ih]

theorem updateFirst_of_id (inv : List Item) (id : String) (f : Item → Item)
    (hf : ∀ i, f i = i) : updateFirst inv id f = inv := by
  induction inv with
  | nil => rfl
  | cons i rest ih =>
    unfold updateFirst
    cases h : (i.id == id) with
    | true => simp [h, hf]
    | false => simp [h, ih]

theorem mem_updateFirst (inv : List Item) (id : String) (f : Item → Item)
    (j : Item) (hj : j ∈ updateFirst inv id f) : j ∈ inv ∨ ∃ i, i ∈ inv ∧ j = f i := by
  induction inv with
  | nil => simp [updateFirst] at hj
  | cons i rest ih =>
    unfold updateFirst at hj
    cases h : (i.id == id) with
    | true =>
      rw [h] at hj
      simp only [if_true] at hj
      rcases List.mem_cons.mp hj with h1 | h1
      · exact Or.inr ⟨i, List.mem_cons_self i rest, h1⟩
      · exact Or.inl (List.mem_cons_of_mem i h1)
    | false =>
      rw [h] at hj
      simp only [Bool.false_eq_true, if_false] at hj
      rcases List.mem_cons.mp hj with h1 | h1
      · exact Or.inl (h1 ▸ List.mem_cons_self i rest)
      · rcases ih h1 with h2 | ⟨i', hi', rfl⟩
        · exact Or.inl (List.mem_cons_of_mem i h2)
        · exact Or.inr ⟨i', List.mem_cons_of_mem i hi', rfl⟩

/-! Claim theorems. -/

/-- C2: after PUT /inventory/:id whose body carries only `description`
(no `inventory_name`), every item's `inventory_name` is unchanged; an
empty-string `inventory_name` in the patch likewise leaves every name
unchanged; an empty-string `description` leaves every description
unchanged; and a patch carrying neither field (or only empty strings)
leaves the inventory unchanged as a whole. -/
theorem put_only_description_preserves_name (inv : List Item) (id : String)
    (name_field desc_field : Option String) :
    (updateItem inv id none desc_field).inventory.map Item.inventory_name
        = inv.map Item.inventory_name
    ∧ (updateItem inv id (some "") desc_field).inventory.map Item.inventory_name
        = inv.map Item.inventory_name
    ∧ (updateItem inv id name_field (some "")).inventory.map Item.description
        = inv.map Item.description
    ∧ (updateItem inv id none (some "")).inventory = inv := by
  refine ⟨?_, ?_, ?_, ?_⟩
  · unfold updateItem
    cases hf : findItem inv id with
    | none => rfl
    | some it =>
      simp only []
      exact updateFirst_map inv id _ Item.inventory_name
        (fun i => by rw [applyPatch_inventory_name]; simp [truthy])
  · unfold updateItem
    cases hf : findItem inv id with
    | none => rfl
    | some it =>
      simp only []
      exact updateFirst_map inv id _ Item.inventory_name
        (fun i => by rw [applyPatch_inventory_name]; simp [truthy])
  · unfold updateItem
    cases hf : findItem inv id with
    | none => rfl
    | some it =>
      simp only []
      exact updateFirst_map inv id _ Item.description
        (fun i => by rw [applyPatch_description]; simp [truthy])
  · unfold updateItem
    cases hf : findItem inv id with
    | none => rfl
    | some it =>
      simp only []
      exact updateFirst_of_id inv id _
        (fun i => by unfold applyPatch; simp [truthy])

/-- C3: POST /register with a missing or empty `inventory_name` answers 400
and leaves the inventory unchanged (same list, hence same length and
elements). -/
theorem register_missing_name_rejected (inv : List Item) (freshId : String)
    (description photoFile : Option String) :
    (register inv freshId none description photoFile).status = 400
    ∧ (register inv freshId none description photoFile).inventory = inv
    ∧ (register inv freshId (some "") description photoFile).status = 400
    ∧ (register inv freshId (some "") description photoFile).inventory = inv := by
  refine ⟨?_, ?_, ?_, ?_⟩ <;> simp [register, truthy]

/-- C10: a request whose method is outside {GET, POST, PUT, DELETE} is
answered 405 by the middleware with an `Allow` header listing exactly the
four permitted methods, whatever the request path is. -/
theorem unsupported_method_rejected (method pathStr : String)
    (h : method ∉ allowedMethods) :
    (methodMiddleware method pathStr).status = some 405
    ∧ (methodMiddleware method pathStr).allowHeader = some "GET, POST, PUT, DELETE"
    ∧ allowedMethods = ["GET", "POST", "PUT", "DELETE"] := by
  refine ⟨?_, ?_, rfl⟩ <;> (simp [methodMiddleware, h]; try rfl)

/-- Closed witness for C10 at the concrete method PATCH. -/
theorem unsupported_method_rejected_witness :
    "PATCH" ∉ allowedMethods
    ∧ (methodMiddleware "PATCH" "/inventory").status = some 405
    ∧ (methodMiddleware "PATCH" "/inventory").allowHeader = some "GET, POST, PUT, DELETE"
    ∧ allowedMethods = ["GET", "POST", "PUT", "DELETE"] := by
  have h : "PATCH" ∉ allowedMethods := by decide
  exact ⟨h, unsupported_method_rejected "PATCH" "/inventory" h⟩

/-- C5: GET /inventory/:id/photo answers 404 whenever the id is unknown, or
the item has no photo reference, or the referenced file is absent from the
cache directory; moreover the handler never answers 500 on any input. -/
theorem photo_not_found_is_404 (inv : List Item) (id : String) (files : List String)
    (h : findItem inv id = none
         ∨ ∃ it, findItem inv id = some it
             ∧ (it.photo_path = none ∨ ∃ p, it.photo_path = some p ∧ p ∉ files)) :
    (getPhoto inv id files).status = 404
    ∧ ∀ (inv2 : List Item) (id2 : String) (files2 : List String),
        (getPhoto inv2 id2 files2).status ≠ 500 := by
  constructor
  · rcases h with hnone | ⟨it, hit, hcase⟩
    · simp [getPhoto, hnone]
    · rcases hcase with hpp | ⟨p, hpp, hpf⟩
      · simp [getPhoto, hit, hpp, truthy]
      · by_cases hempty : p = ""
        · subst hempty
          simp [getPhoto, hit, hpp, truthy]
        · simp [getPhoto, hit, hpp, truthy, hempty, hpf]
  · intro inv2 id2 files2
    unfold getPhoto
    cases hf : findItem inv2 id2 with
    | none => simp
    | some item =>
      cases ht : truthy item.photo_path with
      | false => simp [ht]
      | true =>
        simp only [ht, if_true]
        split <;> simp

/-- Closed witness for C5: an unknown id on an empty inventory. -/
theorem photo_not_found_is_404_witness :
    findItem [] "x" = none ∧ (getPhoto ([] : List Item) "x" []).status = 404 :=
  ⟨rfl, (photo_not_found_is_404 [] "x" [] (Or.inl rfl)).1⟩

/-- C9: a successful registration appends the new item at the end of the
inventory; GET /inventory lists every item in insertion order (the freshly
registered item last), each paired with a `photo_link` that is the path
/inventory/:id/photo when the item has a (truthy) photo reference and null
otherwise. -/
theorem register_appends_and_list_order (inv : List Item) (freshId : String)
    (nm ds ph : Option String) (h : truthy nm = true) :
    (register inv freshId nm ds ph).inventory
        = inv ++ [{ id := freshId, inventory_name := nm.getD "",
                    description := ds.getD "", photo_path := ph }]
    ∧ listInventory (register inv freshId nm ds ph).inventory
        = listInventory inv
          ++ [({ id := freshId, inventory_name := nm.getD "",
                 description := ds.getD "", photo_path := ph },
               photoLink { id := freshId, inventory_name := nm.getD "",
                           description := ds.getD "", photo_path := ph })]
    ∧ (listInventory inv).map Prod.fst = inv
    ∧ ∀ item pl, (item, pl) ∈ listInventory inv →
        pl = (if truthy item.photo_path
              then some ("/inventory/" ++ item.id ++ "/photo") else none) := by
  refine ⟨?_, ?_, ?_, ?_⟩
  · simp [register, h]
  · simp [register, h, listInventory]
  · rw [listInventory, List.map_map]
    have hcomp : (Prod.fst ∘ fun item : Item => (item, photoLink item)) = id := rfl
    rw [hcomp, List.map_id]
  · intro item pl hmem
    rcases List.mem_map.mp hmem with ⟨a, _, heq⟩
    obtain ⟨rfl, rfl⟩ := Prod.mk.injEq .. |>.mp heq
    rfl

/-- Closed witness for C9: registering Laptop on an empty inventory. -/
theorem register_appends_witness :
    truthy (some "Laptop") = true
    ∧ (register [] "id1" (some "Laptop") (some "Dell XPS") none).inventory
        = [{ id := "id1", inventory_name := "Laptop",
             description := "Dell XPS", photo_path := none }] := by
  have h : truthy (some "Laptop") = true := rfl
  refine ⟨h, ?_⟩
  have h1 := (register_appends_and_list_order [] "id1"
    (some "Laptop") (some "Dell XPS") none h).1
  simpa using h1

/-- C1: when the generated id is fresh (which `uuidv4()` provides), a
successful registration answers 201 carrying that id, exactly one live item
bears the id afterwards, and GET /inventory/:id on the returned id answers
200 with the registered item's fields. -/
theorem register_fresh_id_resolvable (inv : List Item) (freshId : String)
    (nm ds ph : Option String) (hnm : truthy nm = true)
    (hfresh : ∀ i ∈ inv, i.id ≠ freshId) :
    (register inv freshId nm ds ph).status = 201
    ∧ (register inv freshId nm ds ph).resp_id = some freshId
    ∧ ((register inv freshId nm ds ph).inventory.map Item.id).count freshId = 1
    ∧ (getItem (register inv freshId nm ds ph).inventory freshId).status = 200
    ∧ (getItem (register inv freshId nm ds ph).inventory freshId).resp_item
        = some { id := freshId, inventory_name := nm.getD "",
                 description := ds.getD "", photo_path := ph } := by
  have hnone : List.find? (fun i => i.id == freshId) inv = none :=
    List.find?_eq_none.mpr (fun i hi => by simpa using hfresh i hi)
  have hfind : findItem (register inv freshId nm ds ph).inventory freshId
      = some { id := freshId, inventory_name := nm.getD "",
               description := ds.getD "", photo_path := ph } := by
    simp [register, hnm, findItem, List.find?_append, hnone]
  have hcount : (inv.map Item.id).count freshId = 0 := by
    rw [List.count_eq_zero]
    intro hmem
    rcases List.mem_map.mp hmem with ⟨i, hi, hid⟩
    exact hfresh i hi hid
  refine ⟨?_, ?_, ?_, ?_, ?_⟩
  · simp [register, hnm]
  · simp [register, hnm]
  · simp [register, hnm, hcount]
  · simp [getItem, hfind]
  · simp [getItem, hfind]

/-- Closed witness for C1: registering Laptop with id id1 on an empty
inventory. -/
theorem register_fresh_id_witness :
    truthy (some "Laptop") = true
    ∧ (∀ i ∈ ([] : List Item), i.id ≠ "id1")
    ∧ (register [] "id1" (some "Laptop") none none).status = 201
    ∧ (getItem (register [] "id1" (some "Laptop") none none).inventory "id1").status
        = 200 := by
  have h1 : truthy (some "Laptop") = true := rfl
  have h2 : ∀ i ∈ ([] : List Item), i.id ≠ "id1" := by simp
  have h3 := register_fresh_id_resolvable [] "id1" (some "Laptop") none none h1 h2
  exact ⟨h1, h2, h3.1, h3.2.2.2.1⟩

/-- The inventory surviving DELETE /inventory/:id is always the filtered
array, in both the 200 and the 404 branch and for either unlink outcome. -/
theorem deleteItem_inventory (inv : List Item) (id : String) (files : List String)
    (unlinkOk : Bool) :
    (deleteItem inv id files unlinkOk).inventory = inv.filter (fun i => i.id != id) := by
  unfold deleteItem
  dsimp only
  split <;> rfl

/-- The status of DELETE /inventory/:id depends only on whether the filter
removed something, not on the unlink outcome. -/
theorem deleteItem_status (inv : List Item) (id : String) (files : List String)
    (unlinkOk : Bool) :
    (deleteItem inv id files unlinkOk).status
      = if (inv.filter (fun i => i.id != id)).length = inv.length then 404 else 200 := by
  unfold deleteItem
  dsimp only
  split <;> simp [*]

/-- C4: after a DELETE /inventory/:id that answered 200, GET /inventory/:id
answers 404; the item is removed from the collection by the filter itself,
and both the surviving inventory and the 200 status are identical whether
the photo-file unlink succeeds or fails. -/
theorem delete_then_get_404 (inv : List Item) (id : String) (files : List String)
    (unlinkOk : Bool) (h : (deleteItem inv id files unlinkOk).status = 200) :
    (getItem (deleteItem inv id files unlinkOk).inventory id).status = 404
    ∧ (deleteItem inv id files unlinkOk).inventory = inv.filter (fun i => i.id != id)
    ∧ (deleteItem inv id files (!unlinkOk)).inventory
        = (deleteItem inv id files unlinkOk).inventory
    ∧ (deleteItem inv id files (!unlinkOk)).status = 200 := by
  have hnone : List.find? (fun i => i.id == id) (inv.filter (fun i => i.id != id))
      = none := by
    rw [List.find?_eq_none]
    intro i hi
    have h2 := (List.mem_filter.mp hi).2
    simp only [bne_iff_ne, ne_eq] at h2
    simpa using h2
  refine ⟨?_, deleteItem_inventory inv id files unlinkOk, ?_, ?_⟩
  · simp [getItem, findItem, deleteItem_inventory, hnone]
  · rw [deleteItem_inventory, deleteItem_inventory]
  · rw [deleteItem_status] at h
    rw [deleteItem_status]
    by_cases hc : (inv.filter (fun i => i.id != id)).length = inv.length
    · rw [if_pos hc] at h
      exact absurd h (by decide)
    · rw [if_neg hc]

/-- Closed witness for C4: deleting the only item of a one-item inventory. -/
theorem delete_then_get_404_witness :
    (deleteItem [(⟨"a", "n", "", none⟩ : Item)] "a" [] true).status = 200
    ∧ (getItem (deleteItem [(⟨"a", "n", "", none⟩ : Item)] "a" [] true).inventory
        "a").status = 404 := by
  have h : (deleteItem [(⟨"a", "n", "", none⟩ : Item)] "a" [] true).status = 200 := by
    decide
  exact ⟨h, (delete_then_get_404 _ "a" [] true h).1⟩

/-- C6: POST /search on a known id answers 200, and the response carries
`photo_link` exactly when `has_photo` is the literal string on and the item
has a photo reference.  The hypothesis `photo_path` not equal to `some ""`
holds for every item the program builds, since a stored photo basename is
never the empty string. -/
theorem search_photo_link_iff (inv : List Item) (idStr : String)
    (has_photo : Option String) (it : Item) (hid : idStr ≠ "")
    (hfind : findItem inv idStr = some it) (hne : it.photo_path ≠ some "") :
    (search inv (some idStr) has_photo).status = 200
    ∧ ((search inv (some idStr) has_photo).resp_photo_link ≠ none
        ↔ has_photo = some "on" ∧ it.photo_path ≠ none) := by
  have ht : truthy (some idStr) = true := by simp [truthy, hid]
  constructor
  · simp [search, ht, hfind]
  · simp only [search, ht, if_true, Option.getD_some, hfind]
    cases hp : it.photo_path with
    | none => simp [truthy, hp]
    | some s =>
      have hs : s ≠ "" := fun hcon => hne (by rw [hp, hcon])
      simp [truthy, hp, hs]

/-- Closed witness for C6: a one-item inventory searched with has_photo on. -/
theorem search_photo_link_iff_witness :
    ("a" : String) ≠ ""
    ∧ findItem [(⟨"a", "n", "d", some "p.png"⟩ : Item)] "a"
        = some (⟨"a", "n", "d", some "p.png"⟩ : Item)
    ∧ (⟨"a", "n", "d", some "p.png"⟩ : Item).photo_path ≠ some ""
    ∧ (search [(⟨"a", "n", "d", some "p.png"⟩ : Item)] (some "a") (some "on")).status
        = 200 := by
  have h1 : ("a" : String) ≠ "" := by decide
  have h2 : findItem [(⟨"a", "n", "d", some "p.png"⟩ : Item)] "a"
      = some (⟨"a", "n", "d", some "p.png"⟩ : Item) := by decide
  have h3 : (⟨"a", "n", "d", some "p.png"⟩ : Item).photo_path ≠ some "" := by decide
  exact ⟨h1, h2, h3, (search_photo_link_iff _ "a" (some "on") _ h1 h2 h3).1⟩

/-- Looking up the updated id after an in-place mutation that keeps ids
fixed finds the mutated first match. -/
theorem findItem_updateFirst (inv : List Item) (id : String) (f : Item → Item)
    (hf : ∀ i, (f i).id = i.id) :
    findItem (updateFirst inv id f) id = (findItem inv id).map f := by
  induction inv with
  | nil => rfl
  | cons i rest ih =>
    simp only [findItem] at ih ⊢
    unfold updateFirst
    cases h : (i.id == id) with
    | true => simp [List.find?_cons, hf, h]
    | false => simp [List.find?_cons, h, ih]

/-- C8: PUT /inventory/:id/photo on an existing item with no uploaded file
still answers 200 with a non-null `photo_link` of the form
/inventory/:id/photo, while the stored photo reference becomes null, so
that a GET on that link answers 404. -/
theorem put_photo_without_file (inv : List Item) (id : String) (files : List String)
    (unlinkOk : Bool) (it : Item) (hfind : findItem inv id = some it) :
    (putPhoto inv id none files unlinkOk).status = 200
    ∧ (putPhoto inv id none files unlinkOk).resp_photo_link
        = some ("/inventory/" ++ id ++ "/photo")
    ∧ (findItem (putPhoto inv id none files unlinkOk).inventory id).map Item.photo_path
        = some none
    ∧ (getPhoto (putPhoto inv id none files unlinkOk).inventory id
        (putPhoto inv id none files unlinkOk).files).status = 404 := by
  have hid : it.id = id := by
    have h1 : List.find? (fun i => i.id == id) inv = some it := hfind
    simpa using List.find?_some h1
  have hinv : (putPhoto inv id none files unlinkOk).inventory
      = updateFirst inv id (fun i => { i with photo_path := none }) := by
    simp [putPhoto, hfind]
  have hfind2 : findItem (putPhoto inv id none files unlinkOk).inventory id
      = some { it with photo_path := none } := by
    rw [hinv, findItem_updateFirst inv id
      (fun i => { i with photo_path := none }) (fun i => rfl), hfind]
    rfl
  refine ⟨?_, ?_, ?_, ?_⟩
  · simp [putPhoto, hfind]
  · simp [putPhoto, hfind, hid]
  · rw [hfind2]
    rfl
  · simp [getPhoto, hfind2, truthy]

/-- Closed witness for C8: clearing the photo of the only item. -/
theorem put_photo_without_file_witness :
    findItem [(⟨"a", "n", "d", some "p.png"⟩ : Item)] "a"
        = some (⟨"a", "n", "d", some "p.png"⟩ : Item)
    ∧ (putPhoto [(⟨"a", "n", "d", some "p.png"⟩ : Item)] "a" none ["p.png"] true).status
        = 200
    ∧ (putPhoto [(⟨"a", "n", "d", some "p.png"⟩ : Item)] "a" none ["p.png"]
        true).resp_photo_link = some ("/inventory/" ++ "a" ++ "/photo") := by
  have h1 : findItem [(⟨"a", "n", "d", some "p.png"⟩ : Item)] "a"
      = some (⟨"a", "n", "d", some "p.png"⟩ : Item) := by decide
  have h2 := put_photo_without_file _ "a" ["p.png"] true _ h1
  exact ⟨h1, h2.1, h2.2.1⟩

/-- Modelled from the spec: the id generator `uuidv4()` of the external uuid
package, which the spec takes to assign a fresh unique id on every call;
modelled as an injective function of a process-lifetime counter of
generated ids. -/
def uuidGen (n : Nat) : String := String.mk (List.replicate (n + 1) 'u')

theorem uuidGen_injective : Function.Injective uuidGen := by
  intro a b h
  have h2 : List.replicate (a + 1) 'u' = List.replicate (b + 1) 'u' := by
    simpa [uuidGen, String.ext_iff] using h
  have h3 := congrArg List.length h2
  simp only [List.length_replicate] at h3
  omega

/-- Whole server state: the INVENTORY array, the cache-directory contents,
and the counter driving the modelled uuid generator. -/
structure ServerState where
  inventory : List Item
  files : List String
  nextId : Nat

/-- One mutating request of the HTTP API as a transition between server
states; registration consumes a fresh id from the generator. -/
inductive Step : ServerState → ServerState → Prop
  | doRegister (nm ds ph : Option String) (σ : ServerState) :
      Step σ { inventory := (register σ.inventory (uuidGen σ.nextId) nm ds ph).inventory,
               files := σ.files ++ ph.toList,
               nextId := σ.nextId + 1 }
  | doUpdate (id : String) (nm ds : Option String) (σ : ServerState) :
      Step σ { σ with inventory := (updateItem σ.inventory id nm ds).inventory }
  | doReplacePhoto (id : String) (nf : Option String) (unlinkOk : Bool) (σ : ServerState) :
      Step σ { σ with
               inventory := (putPhoto σ.inventory id nf σ.files unlinkOk).inventory,
               files := (putPhoto σ.inventory id nf σ.files unlinkOk).files }
  | doDelete (id : String) (unlinkOk : Bool) (σ : ServerState) :
      Step σ { σ with
               inventory := (deleteItem σ.inventory id σ.files unlinkOk).inventory,
               files := (deleteItem σ.inventory id σ.files unlinkOk).files }

/-- State invariant: live names are non-empty, live ids are pairwise
distinct, and every live id came out of the generator below the counter. -/
def GoodState (σ : ServerState) : Prop :=
  (∀ i ∈ σ.inventory, i.inventory_name ≠ "")
  ∧ (σ.inventory.map Item.id).Nodup
  ∧ (∀ i ∈ σ.inventory, ∃ k, k < σ.nextId ∧ i.id = uuidGen k)

/-- The state at process start: `INVENTORY = []`. -/
def initialState : ServerState := { inventory := [], files := [], nextId := 0 }

/-- States reachable from process start by any request sequence. -/
def Reachable (σ : ServerState) : Prop :=
  Relation.ReflTransGen Step initialState σ

theorem goodState_initial : GoodState initialState := by
  refine ⟨?_, ?_, ?_⟩ <;> simp [initialState]

theorem register_inventory (inv : List Item) (freshId : String)
    (nm ds ph : Option String) :
    (register inv freshId nm ds ph).inventory
      = if truthy nm then
          inv ++ [{ id := freshId, inventory_name := nm.getD "",
                    description := ds.getD "", photo_path := ph }]
        else inv := by
  unfold register
  dsimp only
  split <;> rfl

theorem updateItem_inventory (inv : List Item) (id : String) (nm ds : Option String) :
    (updateItem inv id nm ds).inventory
      = match findItem inv id with
        | none => inv
        | some _ => updateFirst inv id (fun i => applyPatch i nm ds) := by
  unfold updateItem
  cases findItem inv id <;> rfl

theorem putPhoto_inventory (inv : List Item) (id : String) (nf : Option String)
    (files : List String) (unlinkOk : Bool) :
    (putPhoto inv id nf files unlinkOk).inventory
      = match findItem inv id with
        | none => inv
        | some _ => updateFirst inv id (fun i => { i with photo_path := nf }) := by
  unfold putPhoto
  dsimp only
  cases findItem inv id <;> rfl

theorem goodProps_updateFirst (inv : List Item) (id : String) (f : Item → Item)
    (n : Nat) (hfid : ∀ i, (f i).id = i.id)
    (hfname : ∀ i : Item, i.inventory_name ≠ "" → (f i).inventory_name ≠ "")
    (h1 : ∀ i ∈ inv, i.inventory_name ≠ "")
    (h2 : (inv.map Item.id).Nodup)
    (h3 : ∀ i ∈ inv, ∃ k, k < n ∧ i.id = uuidGen k) :
    (∀ i ∈ updateFirst inv id f, i.inventory_name ≠ "")
    ∧ ((updateFirst inv id f).map Item.id).Nodup
    ∧ (∀ i ∈ updateFirst inv id f, ∃ k, k < n ∧ i.id = uuidGen k) := by
  refine ⟨?_, ?_, ?_⟩
  · intro j hj
    rcases mem_updateFirst inv id f j hj with hmem | ⟨i, hi, rfl⟩
    · exact h1 j hmem
    · exact hfname i (h1 i hi)
  · rw [updateFirst_map inv id f Item.id hfid]
    exact h2
  · intro j hj
    rcases mem_updateFirst inv id f j hj with hmem | ⟨i, hi, rfl⟩
    · exact h3 j hmem
    · rw [hfid]
      exact h3 i hi

theorem step_preserves_goodState (σ σ' : ServerState) (hs : Step σ σ')
    (hg : GoodState σ) : GoodState σ' := by
  obtain ⟨hname, hnodup, hbound⟩ := hg
  cases hs with
  | doRegister nm ds ph σ =>
    unfold GoodState
    dsimp only
    rw [register_inventory]
    by_cases hnm : truthy nm = true
    · rw [if_pos hnm]
      refine ⟨?_, ?_, ?_⟩
      · intro i hi
        rcases List.mem_append.mp hi with hmem | hmem
        · exact hname i hmem
        · rw [List.mem_singleton.mp hmem]
          exact truthy_getD_ne nm hnm
      · rw [List.map_append, List.nodup_append]
        refine ⟨hnodup, by simp, ?_⟩
        intro a ha hb
        rcases List.mem_map.mp ha with ⟨i, hi, rfl⟩
        rcases hbound i hi with ⟨k, hk, hkeq⟩
        simp only [List.map_cons, List.map_nil, List.mem_singleton] at hb
        rw [hkeq] at hb
        have := uuidGen_injective hb
        omega
      · intro i hi
        rcases List.mem_append.mp hi with hmem | hmem
        · rcases hbound i hmem with ⟨k, hk, hkeq⟩
          exact ⟨k, by omega, hkeq⟩
        · rw [List.mem_singleton.mp hmem]
          exact ⟨σ.nextId, by omega, rfl⟩
    · rw [if_neg (by simpa using hnm)]
      refine ⟨hname, hnodup, ?_⟩
      intro i hi
      rcases hbound i hi with ⟨k, hk, hkeq⟩
      exact ⟨k, by omega, hkeq⟩
  | doUpdate id nm ds σ =>
    unfold GoodState
    dsimp only
    simp only [updateItem_inventory]
    cases hf : findItem σ.inventory id with
    | none => exact ⟨hname, hnodup, hbound⟩
    | some it =>
      refine goodProps_updateFirst σ.inventory id _ σ.nextId
        (fun i => applyPatch_id i nm ds) ?_ hname hnodup hbound
      intro i hi
      rw [applyPatch_inventory_name]
      by_cases hnm : truthy nm = true
      · rw [if_pos hnm]
        exact truthy_getD_ne nm hnm
      · rw [if_neg (by simpa using hnm)]
        exact hi
  | doReplacePhoto id nf unlinkOk σ =>
    unfold GoodState
    dsimp only
    simp only [putPhoto_inventory]
    cases hf : findItem σ.inventory id with
    | none => exact ⟨hname, hnodup, hbound⟩
    | some it =>
      exact goodProps_updateFirst σ.inventory id _ σ.nextId
        (fun i => rfl) (fun i hi => hi) hname hnodup hbound
  | doDelete id unlinkOk σ =>
    unfold GoodState
    dsimp only
    simp only [deleteItem_inventory]
    refine ⟨?_, ?_, ?_⟩
    · intro i hi
      exact hname i (List.mem_filter.mp hi).1
    · exact hnodup.sublist ((List.filter_sublist σ.inventory).map Item.id)
    · intro i hi
      exact hbound i (List.mem_filter.mp hi).1

/-- C7: in every server state reachable from process start by any sequence
of register, update, photo-replacement and delete requests, every live item
has a non-empty `inventory_name` and no two live items share an id. -/
theorem reachable_state_invariant (σ : ServerState) (h : Reachable σ) :
    (∀ i ∈ σ.inventory, i.inventory_name ≠ "")
    ∧ (σ.inventory.map Item.id).Nodup := by
  have hg : GoodState σ := by
    unfold Reachable at h
    induction h with
    | refl => exact goodState_initial
    | tail _ hstep ih => exact step_preserves_goodState _ _ hstep ih
  exact ⟨hg.1, hg.2.1⟩

/-- Closed witness for C7: the state after one successful registration. -/
theorem reachable_state_invariant_witness :
    Reachable { inventory := (register initialState.inventory
                                (uuidGen initialState.nextId)
                                (some "Laptop") (some "Dell XPS") none).inventory,
                files := initialState.files ++ (none : Option String).toList,
                nextId := initialState.nextId + 1 }
    ∧ ∀ i ∈ (register initialState.inventory (uuidGen initialState.nextId)
              (some "Laptop") (some "Dell XPS") none).inventory,
        i.inventory_name ≠ "" := by
  have hr : Reachable { inventory := (register initialState.inventory
                          (uuidGen initialState.nextId)
                          (some "Laptop") (some "Dell XPS") none).inventory,
                        files := initialState.files ++ (none : Option String).toList,
                        nextId := initialState.nextId + 1 } :=
    Relation.ReflTransGen.single
      (Step.doRegister (some "Laptop") (some "Dell XPS") none initialState)
  exact ⟨hr, (reachable_state_invariant _ hr).1⟩

end Inv
